import Mathlib

/-!
Verification of `lib/babel-pipeline.js` (AVA's Babel transform cache).

The embedding models:
  * the subset of JavaScript values that `validate` inspects (`JSVal`),
    with JS truthiness, `typeof x === 'object'`, `Array.isArray` and
    `Object.keys(x).length`;
  * `validate(conf)` (options resolver);
  * the effective environment-name resolution
    `process.env.BABEL_ENV || ('NODE_ENV' in process.env ? process.env.NODE_ENV : 'test') || 'development'`;
  * the cache-key / cache-path derivation and the per-file closure returned
    by `build` (`ensureTransformed`), over byte sequences (`Bytes`).

File paths and file contents are byte sequences (`List Nat`).  The MD5 digest
(`md5-hex`) is abstracted as a parameter `H : Bytes → Bytes` applied to the
exact byte stream the JS code feeds it (`md5-hex` hashes the concatenation of
its array argument's elements); claims about key sensitivity are proved for
every collision-free `H`, matching the spec's "collision-resistant-for-this-
purpose" reading of MD5.  The external transformation engine
(`babel.transformSync`) and the source-map locator (`getSourceMap`, a thin
wrapper over the external `convert-source-map` collaborator) are parameters,
as the spec treats them as external collaborators.
-/

namespace BabelPipeline

/-- The subset of JavaScript values that `validate` inspects. Object fields
are listed with distinct keys, as in a JS object. -/
inductive JSVal where
  | undefined
  | jsNull
  | bool (b : Bool)
  | num (n : Int)
  | str (s : String)
  | obj (fields : List (String × JSVal))
  | arr (elems : List JSVal)

/-- JS truthiness for the values of `JSVal` (`NaN` is not modelled; numbers
are integers). -/
def truthy : JSVal → Bool
  | .undefined => false
  | .jsNull => false
  | .bool b => b
  | .num n => n != 0
  | .str s => s != ""
  | .obj _ => true
  | .arr _ => true

/-- `typeof v === 'object'`: true for `null`, plain objects and arrays. -/
def typeofObject : JSVal → Bool
  | .jsNull => true
  | .obj _ => true
  | .arr _ => true
  | _ => false

/-- `Array.isArray(v)`. -/
def isArray : JSVal → Bool
  | .arr _ => true
  | _ => false

/-- First-match association-list lookup on object fields. -/
def lookupKey (k : String) : List (String × JSVal) → Option JSVal
  | [] => none
  | (k2, v) :: rest => if k2 = k then some v else lookupKey k rest

/-- JS property access `v.k` on the values `validate` reaches it on:
`undefined` when absent or when `v` is not a plain object. -/
def getField (v : JSVal) (k : String) : JSVal :=
  match v with
  | .obj fields => (lookupKey k fields).getD .undefined
  | _ => .undefined

/-- `Object.keys(v).length` (fields carry distinct keys). -/
def numKeys : JSVal → Nat
  | .obj fields => fields.length
  | _ => 0

/-- Result of `validate`: `disabled` is the JS `null` return, `conf` the
`{testOptions: …}` record. -/
inductive ValidateResult where
  | disabled
  | conf (testOptions : List (String × JSVal))

/-- `const defaultOptions = {babelrc: true}`. -/
def defaultOptions : List (String × JSVal) := [("babelrc", .bool true)]

/-- `Object.assign({}, a, b)`: keys of `a` in order, values overridden by `b`
where present, followed by the keys of `b` absent from `a`. -/
def objAssign (a b : List (String × JSVal)) : List (String × JSVal) :=
  a.map (fun p => (p.1, (lookupKey p.1 b).getD p.2))
    ++ b.filter (fun q => (lookupKey q.1 a).isNone)

/-- The error message thrown by `validate` (the chalk-underlined URL is
elided). -/
def avaConfigError : String :=
  "Unexpected Babel configuration for AVA."

/-- The guard of `validate`'s `throw`:
`!conf || typeof conf !== 'object' || !conf.testOptions ||
 typeof conf.testOptions !== 'object' || Array.isArray(conf.testOptions) ||
 Object.keys(conf).length > 1`. -/
def badShape (conf : JSVal) : Bool :=
  !truthy conf || !typeofObject conf || !truthy (getField conf "testOptions")
    || !typeofObject (getField conf "testOptions")
    || isArray (getField conf "testOptions")
    || decide (numKeys conf > 1)

/-- `validate(conf)` from `lib/babel-pipeline.js`.  The final match arm is
unreachable (the guard forces `conf.testOptions` to be a plain object) and
throws the same error. -/
def validate : JSVal → Except String ValidateResult
  | .bool false => .ok .disabled
  | .undefined => .ok (.conf defaultOptions)
  | conf =>
    if badShape conf then .error avaConfigError
    else
      match getField conf "testOptions" with
      | .obj t => .ok (.conf (objAssign defaultOptions t))
      | _ => .error avaConfigError

/-- A process environment: variable name to value, `none` when the variable
is absent. -/
abbrev Env := String → Option String

/-- `process.env.BABEL_ENV || ('NODE_ENV' in process.env ? process.env.NODE_ENV : 'test') || 'development'`.
An absent variable reads as `undefined`, which is falsy like the empty
string, so `BABEL_ENV` decides exactly when present and non-empty. -/
def envName (env : Env) : String :=
  let babelEnv := (env "BABEL_ENV").getD ""
  if babelEnv ≠ "" then babelEnv
  else
    let nodeEnv := match env "NODE_ENV" with
      | some v => v
      | none => "test"
    if nodeEnv ≠ "" then nodeEnv else "development"

/-- Byte sequences: file contents, paths, digests. -/
abbrev Bytes := List Nat

/-- UTF-8 bytes of a string. -/
def strBytes (s : String) : Bytes := s.toUTF8.toList.map (·.toNat)

/-- Whether a byte sequence begins with the UTF-8 BOM `EF BB BF`
(`buffer[0] === 0xEF && buffer[1] === 0xBB && buffer[2] === 0xBF`). -/
def hasBom : Bytes → Bool
  | 239 :: 187 :: 191 :: _ => true
  | _ => false

/-- `strip-bom-buf`: `hasBom(buffer) ? buffer.slice(3) : buffer`. -/
def stripBom (b : Bytes) : Bytes := if hasBom b then b.drop 3 else b

/-- The per-process configuration captured by `build`'s closure.  The seed
components (`process.versions.node`, `pkg.version`, `projectDir`, `envName`)
and the cache directory are byte sequences; `testOptions` stands for the
user-supplied transformation options that flow into the engine options but
not into the cache key. -/
structure Config where
  nodeVersion : Bytes
  pkgVersion : Bytes
  projectDir : Bytes
  envName : Bytes
  cacheDir : Bytes
  testOptions : List (String × JSVal)

/-- The byte stream `md5-hex` consumes for
`seedInputs = [process.versions.node, pkg.version, projectDir, envName]`
(`md5-hex` updates the digest with each element in order, i.e. hashes the
concatenation). -/
def seedInputs (c : Config) : Bytes :=
  c.nodeVersion ++ c.pkgVersion ++ c.projectDir ++ c.envName

/-- `const cacheKey = md5Hex(seedInputs)`, for digest `H`. -/
def cacheKey (H : Bytes → Bytes) (c : Config) : Bytes :=
  H (seedInputs c)

/-- `const hash = md5Hex([cacheKey, contents])` where
`contents = stripBomBuf(fs.readFileSync(filename))`. -/
def contentHash (H : Bytes → Bytes) (c : Config) (fileBytes : Bytes) : Bytes :=
  H (cacheKey H c ++ stripBom fileBytes)

/-- `'/'`. -/
def pathSep : Bytes := [47]

/-- `const cachePath = path.join(cacheDir, hash + ext)`. -/
def cachePath (H : Bytes → Bytes) (c : Config) (fileBytes ext : Bytes) : Bytes :=
  c.cacheDir ++ pathSep ++ contentHash H c fileBytes ++ ext

/-- UTF-8 bytes of `".map"`: the map file lives at `cachePath + '.map'`. -/
def dotMap : Bytes := [46, 109, 97, 112]

/-- UTF-8 bytes of `"\n//# sourceMappingURL="`: the newline and
`convertSourceMap.generateMapFileComment(mapPath)` appended to the code. -/
def mapCommentBytes : Bytes :=
  [10, 47, 47, 35, 32, 115, 111, 117, 114, 99, 101, 77, 97, 112, 112, 105,
   110, 103, 85, 82, 76, 61]

/-- The bytes written to the code file: `` `${code}\n${comment}` ``. -/
def codeFileContent (code mapPath : Bytes) : Bytes :=
  code ++ mapCommentBytes ++ mapPath

/-- The cache directory's on-disk state: newest entry first, so lookup finds
the most recent atomic write of a path. -/
abbrev FS := List (Bytes × Bytes)

/-- Content stored at path `p`, if any. -/
def fsGet (fs : FS) (p : Bytes) : Option Bytes :=
  match fs with
  | [] => none
  | (q, v) :: rest => if q = p then some v else fsGet rest p

/-- One `writeFileAtomic.sync(p, v)`: the rename is the publish step, so the
state changes in a single atomic event. -/
def fsWrite (fs : FS) (p v : Bytes) : FS := (p, v) :: fs

/-- Apply a sequence of atomic writes in order. -/
def applyWrites (fs : FS) (ws : List (Bytes × Bytes)) : FS :=
  ws.foldl (fun f w => fsWrite f w.1 w.2) fs

/-- The ordered atomic writes of the slow path: the map file first, then the
code file carrying the map-file comment. -/
def slowTrace (cp code map : Bytes) : List (Bytes × Bytes) :=
  [(cp ++ dotMap, map), (cp, codeFileContent code (cp ++ dotMap))]

/-- The external transformation engine (`babel.transformSync`), as the spec's
collaborator interface: options, input code and optional input source map to
either an error or `(code, map)` (the map already serialized). -/
abbrev Engine :=
  List (String × JSVal) → Bytes → Option Bytes → Except String (Bytes × Bytes)

/-- A source-map locator standing for `getSourceMap(filename, inputCode)`:
input code to an optional input map. -/
abbrev Locator := Bytes → Option Bytes

/-- Outcome of one `ensureTransformed` call: the returned path or the
propagated engine error, the resulting cache state, and how many engine
invocations, existence checks and file writes the call performed. -/
structure RunResult where
  outcome : Except String Bytes
  fs : FS
  engineCalls : Nat
  existChecks : Nat
  fileWrites : Nat

/-- The per-file closure returned by `build`: read and BOM-strip the file,
derive the cache path, return it if it exists (fast path), otherwise invoke
the engine once and atomically publish the map file then the code file. -/
def ensureTransformed (H : Bytes → Bytes) (engine : Engine) (locate : Locator)
    (c : Config) (fileBytes ext : Bytes) (fs : FS) : RunResult :=
  let contents := stripBom fileBytes
  let cp := cachePath H c fileBytes ext
  if (fsGet fs cp).isSome then
    { outcome := .ok cp, fs := fs, engineCalls := 0, existChecks := 1,
      fileWrites := 0 }
  else
    match engine c.testOptions contents (locate contents) with
    | .error e =>
      { outcome := .error e, fs := fs, engineCalls := 1, existChecks := 1,
        fileWrites := 0 }
    | .ok (code, map) =>
      { outcome := .ok cp, fs := applyWrites fs (slowTrace cp code map),
        engineCalls := 1, existChecks := 1, fileWrites := 2 }

/-- `build(projectDir, cacheDir, userOptions, compileEnhancements)` up to the
per-file closure: `null` (pass-through) when neither user options nor
enhancement compilation is requested, otherwise the closure configuration
with the environment name resolved once.  `userOptions` is `validate`'s
result (`none` is JS `null`). -/
def build (nodeVersion pkgVersion projectDir cacheDir : Bytes) (env : Env)
    (userOptions : Option (List (String × JSVal)))
    (compileEnhancements : Bool) : Option Config :=
  if userOptions.isNone && !compileEnhancements then none
  else
    some { nodeVersion := nodeVersion, pkgVersion := pkgVersion,
           projectDir := projectDir, envName := strBytes (envName env),
           cacheDir := cacheDir, testOptions := userOptions.getD [] }

/-! Concrete instances used to evaluate the theorems on explicit inputs. -/

/-- An injective stand-in digest for concrete evaluations. -/
def consH (b : Bytes) : Bytes := 0 :: b

theorem consH_injective : Function.Injective consH := by
  intro a b h
  exact List.tail_eq_of_cons_eq h

/-- An environment with `BABEL_ENV` unset and `NODE_ENV` set to the empty
string. -/
def envEmptyNode : Env := fun k => if k = "NODE_ENV" then some "" else none

/-- An environment with `BABEL_ENV` unset and `NODE_ENV=production`. -/
def envProdNode : Env := fun k => if k = "NODE_ENV" then some "production" else none

/-- An environment with `BABEL_ENV` set to the empty string and
`NODE_ENV=production`. -/
def envEmptyBabel : Env := fun k =>
  if k = "BABEL_ENV" then some ""
  else if k = "NODE_ENV" then some "production" else none

/-- A small concrete pipeline configuration. -/
def cfgA : Config :=
  { nodeVersion := [1], pkgVersion := [2], projectDir := [3], envName := [4],
    cacheDir := [5], testOptions := [] }

/-- `cfgA` with different user `testOptions` but the same seed components. -/
def cfgB : Config :=
  { nodeVersion := [1], pkgVersion := [2], projectDir := [3], envName := [4],
    cacheDir := [5], testOptions := [("plugins", .str "p")] }

/-- An engine whose output depends on the options it receives. -/
def engOpt : Engine := fun opts _ _ =>
  match opts with
  | [] => .ok ([10], [20])
  | _ => .ok ([11], [21])

/-- An engine that always succeeds with fixed output. -/
def engOk : Engine := fun _ _ _ => .ok ([9], [8])

/-- An engine that always fails. -/
def engFail : Engine := fun _ _ _ => .error "SyntaxError"

/-- A locator that finds no input source map. -/
def locNone : Locator := fun _ => none

theorem stripBom_bom_append (rest : Bytes) :
    stripBom ([239, 187, 191] ++ rest) = rest := rfl

theorem stripBom_of_hasBom_false {b : Bytes} (h : hasBom b = false) :
    stripBom b = b := by
  simp [stripBom, h]

theorem ne_append_dotMap (cp : Bytes) : cp ++ dotMap ≠ cp := by
  intro h
  have hlen := congrArg List.length h
  simp [dotMap] at hlen

/-- C2 (counterexample): with `BABEL_ENV` unset and `NODE_ENV` present but
equal to the empty string, the effective environment name is `development`,
not `NODE_ENV`'s (empty) value — the empty value is replaced, contrary to
the claim that a present `NODE_ENV` is used as-is. -/
theorem c2_counterexample :
    envEmptyNode "BABEL_ENV" = none ∧ envEmptyNode "NODE_ENV" = some "" ∧
    envName envEmptyNode = "development" ∧ envName envEmptyNode ≠ "" := by
  refine ⟨rfl, rfl, rfl, by decide⟩

/-- C2 (amended): when `BABEL_ENV` is present and non-empty it decides;
otherwise a present non-empty `NODE_ENV` decides; a present but empty
`NODE_ENV` counts as set — resolution does not fall back to `test` — but
yields `development`; only an entirely absent `NODE_ENV` yields `test`. -/
theorem envName_resolution :
    (∀ (env : Env) (v : String), env "BABEL_ENV" = some v → v ≠ "" →
      envName env = v) ∧
    (∀ (env : Env) (v : String), (env "BABEL_ENV").getD "" = "" →
      env "NODE_ENV" = some v → v ≠ "" → envName env = v) ∧
    (∀ env : Env, (env "BABEL_ENV").getD "" = "" →
      env "NODE_ENV" = some "" → envName env = "development") ∧
    (∀ env : Env, (env "BABEL_ENV").getD "" = "" →
      env "NODE_ENV" = none → envName env = "test") := by
  refine ⟨?_, ?_, ?_, ?_⟩
  · intro env v h hv
    simp [envName, h, hv]
  · intro env v h0 h hv
    simp [envName, h0, h, hv]
  · intro env h0 h
    simp [envName, h0, h]
  · intro env h0 h
    simp [envName, h0, h]
    decide

/-- Witness for the amended C2 theorem at a concrete environment. -/
theorem envName_resolution_witness :
    envName envProdNode = "production" :=
  envName_resolution.2.1 envProdNode "production" rfl rfl (by decide)

/-- C10: a `BABEL_ENV` that is present but empty is treated exactly like an
absent `BABEL_ENV`: resolution proceeds from `NODE_ENV` and the defaults. -/
theorem empty_babel_env_ignored (env : Env) (h : env "BABEL_ENV" = some "") :
    envName env = envName (fun k => if k = "BABEL_ENV" then none else env k) := by
  simp [envName, h]

/-- Witness for C10 at a concrete environment. -/
theorem empty_babel_env_ignored_witness :
    envName envEmptyBabel =
      envName (fun k => if k = "BABEL_ENV" then none else envEmptyBabel k) :=
  empty_babel_env_ignored envEmptyBabel (by decide)

/-- C7: `validate false` yields the disabled sentinel and `build` is then a
pass-through; `validate undefined` yields the defaults with babelrc
discovery enabled; an extra key beside `testOptions` is rejected; a valid
nested `testOptions` object is shallow-merged over the defaults with
explicit keys winning. -/
theorem validate_contract :
    validate (.bool false) = .ok .disabled ∧
    (∀ (n p d cd : Bytes) (env : Env), build n p d cd env none false = none) ∧
    validate .undefined = .ok (.conf [("babelrc", .bool true)]) ∧
    (∀ (t : List (String × JSVal)) (k : String) (v : JSVal),
      validate (.obj [("testOptions", .obj t), (k, v)]) =
        .error avaConfigError) ∧
    (∀ t : List (String × JSVal),
      validate (.obj [("testOptions", .obj t)]) =
        .ok (.conf (objAssign defaultOptions t))) ∧
    (∀ (t : List (String × JSVal)) (v : JSVal),
      lookupKey "babelrc" t = some v →
      lookupKey "babelrc" (objAssign defaultOptions t) = some v) := by
  refine ⟨rfl, ?_, rfl, ?_, ?_, ?_⟩
  · intro n p d cd env
    simp [build]
  · intro t k v
    simp [validate, badShape, getField, lookupKey, truthy, typeofObject,
      isArray, numKeys]
  · intro t
    simp [validate, badShape, getField, lookupKey, truthy, typeofObject,
      isArray, numKeys]
  · intro t v h
    simp [objAssign, defaultOptions, lookupKey, h]

/-- Witness for C7: an explicit `babelrc: false` wins over the default. -/
theorem validate_contract_witness :
    lookupKey "babelrc"
        (objAssign defaultOptions [("babelrc", JSVal.bool false)]) =
      some (JSVal.bool false) :=
  validate_contract.2.2.2.2.2 [("babelrc", JSVal.bool false)]
    (JSVal.bool false) rfl

/-- C9: only `false` disables and only `undefined` selects the defaults; all
other falsy or non-conforming inputs (`null`, any number including `0`, any
string including `""`, `true`, arrays, objects without `testOptions`, and
objects whose `testOptions` is not a plain object) make `validate` throw. -/
theorem validate_rejects_nonconforming :
    validate .jsNull = .error avaConfigError ∧
    (∀ n : Int, validate (.num n) = .error avaConfigError) ∧
    (∀ s : String, validate (.str s) = .error avaConfigError) ∧
    validate (.bool true) = .error avaConfigError ∧
    (∀ xs : List JSVal, validate (.arr xs) = .error avaConfigError) ∧
    (∀ l, lookupKey "testOptions" l = none →
      validate (.obj l) = .error avaConfigError) ∧
    (∀ l v, lookupKey "testOptions" l = some v → (∀ t, v ≠ .obj t) →
      validate (.obj l) = .error avaConfigError) := by
  refine ⟨rfl, ?_, ?_, rfl, ?_, ?_, ?_⟩
  · intro n
    simp [validate, badShape, truthy, typeofObject, getField]
  · intro s
    simp [validate, badShape, truthy, typeofObject, getField]
  · intro xs
    simp [validate, badShape, truthy, typeofObject, getField, isArray]
  · intro l h
    simp [validate, badShape, truthy, typeofObject, getField, isArray, h]
  · intro l v h hv
    cases v with
    | obj t => exact absurd rfl (hv t)
    | undefined =>
      simp [validate, badShape, truthy, typeofObject, getField, isArray, h]
    | jsNull =>
      simp [validate, badShape, truthy, typeofObject, getField, isArray, h]
    | bool b =>
      simp [validate, badShape, truthy, typeofObject, getField, isArray, h]
    | num n =>
      simp [validate, badShape, truthy, typeofObject, getField, isArray, h]
    | str s =>
      simp [validate, badShape, truthy, typeofObject, getField, isArray, h]
    | arr xs =>
      simp [validate, badShape, truthy, typeofObject, getField, isArray, h]

/-- Witness for C9 at a concrete object lacking `testOptions`. -/
theorem validate_rejects_nonconforming_witness :
    validate (.obj [("foo", JSVal.num 1)]) = .error avaConfigError :=
  validate_rejects_nonconforming.2.2.2.2.2.1 [("foo", JSVal.num 1)] rfl

/-- C8: a file beginning with the UTF-8 BOM and the same file without it
(the remainder itself carrying no BOM) produce the same content digest and
hence the same CachePath. -/
theorem bom_same_cachePath (H : Bytes → Bytes) (c : Config)
    (rest ext : Bytes) (h : hasBom rest = false) :
    cachePath H c ([239, 187, 191] ++ rest) ext = cachePath H c rest ext := by
  unfold cachePath contentHash
  rw [stripBom_bom_append, stripBom_of_hasBom_false h]

/-- Witness for C8 at a concrete file. -/
theorem bom_same_cachePath_witness :
    cachePath consH cfgA [239, 187, 191, 65] [46] =
      cachePath consH cfgA [65] [46] :=
  bom_same_cachePath consH cfgA [65] [46] rfl

/-- C3 (counterexample): two different file byte sequences — one with a
leading BOM, one without — share the CachePath, refuting "changing the file
content yields a different CachePath" for raw content as stated. -/
theorem c3_counterexample :
    ([239, 187, 191, 65] : Bytes) ≠ [65] ∧
    cachePath consH cfgA [239, 187, 191, 65] [46, 106, 115] =
      cachePath consH cfgA [65] [46, 106, 115] :=
  ⟨by decide, rfl⟩

/-- C3 (amended): for a collision-free digest, changing the BOM-stripped
file content under a fixed configuration changes the CachePath;
byte-identical files map to the same CachePath (dedup); and changing the
project directory (a Seed Tuple component) with fixed content changes the
CachePath. -/
theorem cachePath_sensitivity :
    (∀ (H : Bytes → Bytes) (c : Config) (b1 b2 ext : Bytes),
      Function.Injective H → stripBom b1 ≠ stripBom b2 →
      cachePath H c b1 ext ≠ cachePath H c b2 ext) ∧
    (∀ (H : Bytes → Bytes) (c : Config) (b1 b2 ext : Bytes), b1 = b2 →
      cachePath H c b1 ext = cachePath H c b2 ext) ∧
    (∀ (H : Bytes → Bytes) (c1 c2 : Config) (b ext : Bytes),
      Function.Injective H →
      c1.nodeVersion = c2.nodeVersion → c1.pkgVersion = c2.pkgVersion →
      c1.envName = c2.envName → c1.cacheDir = c2.cacheDir →
      c1.projectDir ≠ c2.projectDir →
      cachePath H c1 b ext ≠ cachePath H c2 b ext) := by
  refine ⟨?_, ?_, ?_⟩
  · intro H c b1 b2 ext hInj hne heq
    unfold cachePath contentHash at heq
    have h1 := List.append_cancel_left (List.append_cancel_right heq)
    exact hne (List.append_cancel_left (hInj h1))
  · intro H c b1 b2 ext h
    rw [h]
  · intro H c1 c2 b ext hInj h1 h2 h3 h4 hne heq
    unfold cachePath contentHash cacheKey seedInputs at heq
    rw [h4] at heq
    have hh := List.append_cancel_left (List.append_cancel_right heq)
    have hkey := List.append_cancel_right (hInj hh)
    have hseed := hInj hkey
    rw [h1, h2, h3] at hseed
    exact hne (List.append_cancel_left (List.append_cancel_right hseed))

/-- Witness for the amended C3 theorem at concrete inputs. -/
theorem cachePath_sensitivity_witness :
    cachePath consH cfgA [1] [] ≠ cachePath consH cfgA [2] [] :=
  cachePath_sensitivity.1 consH cfgA [1] [2] [] consH_injective (by decide)

/-- C4: in a slow-path execution the map file is atomically published
strictly before the code file; at every prefix of the execution's write
trace, a code file present at CachePath has its companion map file present
with the engine's map, and the code content carries the map-file comment. -/
theorem map_before_code (H : Bytes → Bytes) (engine : Engine)
    (locate : Locator) (c : Config) (fileBytes ext code map : Bytes)
    (fs : FS) (cp : Bytes) (hcp : cp = cachePath H c fileBytes ext)
    (hmiss : fsGet fs cp = none)
    (hok : engine c.testOptions (stripBom fileBytes)
        (locate (stripBom fileBytes)) = .ok (code, map)) :
    (ensureTransformed H engine locate c fileBytes ext fs).fs =
      applyWrites fs (slowTrace cp code map) ∧
    ∀ (k : Nat) (cc : Bytes),
      fsGet (applyWrites fs ((slowTrace cp code map).take k)) cp = some cc →
      cc = codeFileContent code (cp ++ dotMap) ∧
      fsGet (applyWrites fs ((slowTrace cp code map).take k)) (cp ++ dotMap)
        = some map := by
  subst hcp
  constructor
  · simp [ensureTransformed, hmiss, hok]
  · intro k cc hget
    match k with
    | 0 =>
      simp [slowTrace, applyWrites] at hget
      rw [hmiss] at hget
      cases hget
    | 1 =>
      simp [slowTrace, applyWrites, fsWrite, fsGet,
        ne_append_dotMap (cachePath H c fileBytes ext)] at hget
      rw [hmiss] at hget
      cases hget
    | (n + 2) =>
      simp [slowTrace, applyWrites, fsWrite, fsGet,
        ne_append_dotMap (cachePath H c fileBytes ext),
        (ne_append_dotMap (cachePath H c fileBytes ext)).symm] at hget ⊢
      exact hget.symm

/-- Witness for C4 at a concrete slow-path execution, prefix length 2. -/
theorem map_before_code_witness :
    fsGet (applyWrites []
        ((slowTrace (cachePath consH cfgA [7] []) [9] [8]).take 2))
        (cachePath consH cfgA [7] [] ++ dotMap) = some [8] :=
  ((map_before_code consH engOk locNone cfgA [7] [] [9] [8] []
      (cachePath consH cfgA [7] []) rfl rfl rfl).2 2
    (codeFileContent [9] (cachePath consH cfgA [7] [] ++ dotMap))
    (by decide)).2

/-- C5: when the derived CachePath already exists, `ensureTransformed`
performs exactly one existence check, zero engine invocations and zero
writes, leaves the cache unchanged and returns the CachePath; and after any
call that returned a path, a repeat call returns the identical path that
way. -/
theorem fast_path_contract :
    (∀ (H : Bytes → Bytes) (engine : Engine) (locate : Locator) (c : Config)
        (fileBytes ext : Bytes) (fs : FS),
      (fsGet fs (cachePath H c fileBytes ext)).isSome = true →
      ensureTransformed H engine locate c fileBytes ext fs =
        { outcome := .ok (cachePath H c fileBytes ext), fs := fs,
          engineCalls := 0, existChecks := 1, fileWrites := 0 }) ∧
    (∀ (H : Bytes → Bytes) (engine : Engine) (locate : Locator) (c : Config)
        (fileBytes ext : Bytes) (fs : FS) (p : Bytes),
      (ensureTransformed H engine locate c fileBytes ext fs).outcome = .ok p →
      ensureTransformed H engine locate c fileBytes ext
          (ensureTransformed H engine locate c fileBytes ext fs).fs =
        { outcome := .ok p,
          fs := (ensureTransformed H engine locate c fileBytes ext fs).fs,
          engineCalls := 0, existChecks := 1, fileWrites := 0 }) := by
  have fast : ∀ (H : Bytes → Bytes) (engine : Engine) (locate : Locator)
      (c : Config) (fileBytes ext : Bytes) (fs : FS),
      (fsGet fs (cachePath H c fileBytes ext)).isSome = true →
      ensureTransformed H engine locate c fileBytes ext fs =
        { outcome := .ok (cachePath H c fileBytes ext), fs := fs,
          engineCalls := 0, existChecks := 1, fileWrites := 0 } := by
    intro H engine locate c fileBytes ext fs h
    simp [ensureTransformed, h]
  refine ⟨fast, ?_⟩
  intro H engine locate c fileBytes ext fs p hp
  cases ho : fsGet fs (cachePath H c fileBytes ext) with
  | some v =>
    have hc : (fsGet fs (cachePath H c fileBytes ext)).isSome = true := by
      rw [ho]; rfl
    rw [fast H engine locate c fileBytes ext fs hc] at hp ⊢
    simp only [Except.ok.injEq] at hp
    rw [← hp]
    exact fast H engine locate c fileBytes ext fs hc
  | none =>
    rcases he : engine c.testOptions (stripBom fileBytes)
        (locate (stripBom fileBytes)) with e | ⟨code, map⟩
    · simp [ensureTransformed, ho, he] at hp
    · have hout : (ensureTransformed H engine locate c fileBytes ext fs) =
          { outcome := .ok (cachePath H c fileBytes ext),
            fs := applyWrites fs
              (slowTrace (cachePath H c fileBytes ext) code map),
            engineCalls := 1, existChecks := 1, fileWrites := 2 } := by
        simp [ensureTransformed, ho, he]
      rw [hout] at hp ⊢
      simp only [Except.ok.injEq] at hp
      rw [← hp]
      exact fast H engine locate c fileBytes ext _ (by
        simp [applyWrites, slowTrace, fsWrite, fsGet])

/-- Witness for C5 at a concrete pre-populated cache. -/
theorem fast_path_contract_witness :
    ensureTransformed consH engOk locNone cfgA [7] []
        [(cachePath consH cfgA [7] [], [0])] =
      { outcome := .ok (cachePath consH cfgA [7] []),
        fs := [(cachePath consH cfgA [7] [], [0])],
        engineCalls := 0, existChecks := 1, fileWrites := 0 } :=
  fast_path_contract.1 consH engOk locNone cfgA [7] []
    [(cachePath consH cfgA [7] [], [0])] (by decide)

/-- C6: on a cache miss, an engine error propagates unmodified to the caller
and the cache state is unchanged — neither the map file nor the code file
for the CachePath is created or modified. -/
theorem engine_error_propagates (H : Bytes → Bytes) (engine : Engine)
    (locate : Locator) (c : Config) (fileBytes ext : Bytes) (fs : FS)
    (e : String)
    (hmiss : fsGet fs (cachePath H c fileBytes ext) = none)
    (herr : engine c.testOptions (stripBom fileBytes)
        (locate (stripBom fileBytes)) = .error e) :
    ensureTransformed H engine locate c fileBytes ext fs =
      { outcome := .error e, fs := fs, engineCalls := 1, existChecks := 1,
        fileWrites := 0 } := by
  simp [ensureTransformed, hmiss, herr]

/-- Witness for C6 with a failing engine. -/
theorem engine_error_propagates_witness :
    ensureTransformed consH engFail locNone cfgA [7] [] [] =
      { outcome := .error "SyntaxError", fs := [], engineCalls := 1,
        existChecks := 1, fileWrites := 0 } :=
  engine_error_propagates consH engFail locNone cfgA [7] [] [] "SyntaxError"
    rfl rfl

/-- C1 (counterexample): two configurations agreeing on every Seed Tuple
component but differing in user `testOptions` derive the same CachePath;
after the first populates the cache, the second configuration's call
performs zero engine invocations and serves the artifact computed under the
first configuration, although its own engine output would differ. -/
theorem c1_counterexample :
    cfgA.testOptions ≠ cfgB.testOptions ∧
    cachePath consH cfgA [7] [] = cachePath consH cfgB [7] [] ∧
    (ensureTransformed consH engOpt locNone cfgB [7] []
        (ensureTransformed consH engOpt locNone cfgA [7] [] []).fs).engineCalls
      = 0 ∧
    (ensureTransformed consH engOpt locNone cfgB [7] []
        (ensureTransformed consH engOpt locNone cfgA [7] [] []).fs).fs =
      (ensureTransformed consH engOpt locNone cfgA [7] [] []).fs ∧
    fsGet (ensureTransformed consH engOpt locNone cfgA [7] [] []).fs
        (cachePath consH cfgB [7] []) =
      some (codeFileContent [10] (cachePath consH cfgA [7] [] ++ dotMap)) ∧
    engOpt cfgB.testOptions (stripBom [7]) (locNone (stripBom [7])) =
      .ok ([11], [21]) :=
  ⟨by simp [cfgA, cfgB], rfl, rfl, rfl, rfl, rfl⟩

/-- C1 (amended): the cache key distinguishes configurations only by the
Seed Tuple components (runtime version, package version, project directory,
effective environment name); configurations agreeing on those map each
fixed content to the same CachePath, and once one has populated the entry,
a call under the other serves it with zero engine invocations. -/
theorem seed_only_configuration_sensitivity :
    (∀ (H : Bytes → Bytes) (cA cB : Config) (b ext : Bytes),
      cA.nodeVersion = cB.nodeVersion → cA.pkgVersion = cB.pkgVersion →
      cA.projectDir = cB.projectDir → cA.envName = cB.envName →
      cA.cacheDir = cB.cacheDir →
      cachePath H cA b ext = cachePath H cB b ext) ∧
    (∀ (H : Bytes → Bytes) (engine : Engine) (locate : Locator)
        (cA cB : Config) (b ext : Bytes) (fs : FS),
      cachePath H cA b ext = cachePath H cB b ext →
      (fsGet fs (cachePath H cA b ext)).isSome = true →
      ensureTransformed H engine locate cB b ext fs =
        { outcome := .ok (cachePath H cA b ext), fs := fs,
          engineCalls := 0, existChecks := 1, fileWrites := 0 }) := by
  constructor
  · intro H cA cB b ext h1 h2 h3 h4 h5
    unfold cachePath contentHash cacheKey seedInputs
    rw [h1, h2, h3, h4, h5]
  · intro H engine locate cA cB b ext fs heq hit
    rw [heq] at hit ⊢
    simp [ensureTransformed, hit]

/-- Witness for the amended C1 theorem: a cache entry made under `cfgA` is
served to a call under `cfgB`. -/
theorem seed_only_configuration_sensitivity_witness :
    ensureTransformed consH engOpt locNone cfgB [3] []
        [(cachePath consH cfgA [3] [], [0])] =
      { outcome := .ok (cachePath consH cfgA [3] []),
        fs := [(cachePath consH cfgA [3] [], [0])],
        engineCalls := 0, existChecks := 1, fileWrites := 0 } :=
  seed_only_configuration_sensitivity.2 consH engOpt locNone cfgA cfgB [3] []
    [(cachePath consH cfgA [3] [], [0])] rfl (by decide)

end BabelPipeline
